import Mathlib

/- Shallow embedding of the stock ETL pipeline core: the transformer and merge step
   (src/dags/utils/transformers.py), the validators (src/dags/utils/validators.py) and
   the BigQuery loaders (src/dags/utils/loaders.py).  DataFrames are embedded as lists
   of typed rows, prices are exact rationals, dates are the strings in the canonical
   YYYY-MM-DD format written by the transformer.  Non-finite float behaviour
   (division by a zero open or close price) is outside the rational model; theorems
   about the price formulas carry the corresponding positivity hypotheses. -/

/-- One record of the canonical (transformed or merged) table.  Columns follow the
transformed CSV: date and symbol are mandatory strings, open/high/low are nullable
prices, close is mandatory, volume a nullable integer, data_source mandatory, and the
derived fields are nullable.  The field openPrice embeds the column named open (a
Lean keyword); for raw tables the processed_at slot carries the extracted_at
timestamp, which no validator reads. -/
structure Row where
  date : String
  symbol : String
  openPrice : Option ℚ
  high : Option ℚ
  low : Option ℚ
  close : ℚ
  volume : Option ℤ
  data_source : String
  processed_at : String
  daily_change_pct : Option ℚ
  daily_volatility : Option ℚ
deriving DecidableEq

/-- Business key used by drop_duplicates and the merge sort order:
(date, symbol, data_source). -/
def bkey (r : Row) : String × String × String := (r.date, r.symbol, r.data_source)

/-- Code points of a string.  pandas sort_values compares Python strings
lexicographically by code point; this key realises that order over List ℕ, which the
kernel can evaluate. -/
def strKey (s : String) : List ℕ := s.data.map Char.toNat

/-- Sort key of merge_stock_datasets: lexicographic on (date, symbol, data_source). -/
def mergeKey (r : Row) : Lex (List ℕ × Lex (List ℕ × List ℕ)) :=
  toLex (strKey r.date, toLex (strKey r.symbol, strKey r.data_source))

/-- Row order used by sort_values(['date', 'symbol', 'data_source']). -/
def rowLe (a b : Row) : Prop := mergeKey a ≤ mergeKey b

instance : DecidableRel rowLe := fun a b => inferInstanceAs (Decidable (mergeKey a ≤ mergeKey b))

instance : IsTotal Row rowLe := ⟨fun a b => le_total (mergeKey a) (mergeKey b)⟩

instance : IsTrans Row rowLe := ⟨fun _ _ _ h1 h2 => le_trans h1 h2⟩

/-- Helper of uniqueFirst: keep elements not yet seen, first occurrence first. -/
def uniqAux {α : Type} [DecidableEq α] (seen : List α) : List α → List α
  | [] => []
  | a :: l => if a ∈ seen then uniqAux seen l else a :: uniqAux (a :: seen) l

/-- Embedding of pandas Series.unique(): distinct values in order of first
appearance. -/
def uniqueFirst {α : Type} [DecidableEq α] (l : List α) : List α := uniqAux [] l

theorem mem_uniqAux {α : Type} [DecidableEq α] {x : α} {l : List α} :
    ∀ {seen}, x ∈ uniqAux seen l ↔ x ∈ l ∧ x ∉ seen := by
  induction l with
  | nil => intro seen; simp [uniqAux]
  | cons a l ih =>
    intro seen
    by_cases ha : a ∈ seen
    · rw [uniqAux, if_pos ha, ih]
      constructor
      · rintro ⟨h1, h2⟩
        exact ⟨List.mem_cons_of_mem _ h1, h2⟩
      · rintro ⟨h1, h2⟩
        rcases List.mem_cons.mp h1 with rfl | h1
        · exact absurd ha h2
        · exact ⟨h1, h2⟩
    · rw [uniqAux, if_neg ha]
      constructor
      · intro h
        rcases List.mem_cons.mp h with rfl | h
        · exact ⟨List.mem_cons_self _ _, ha⟩
        · rcases ih.mp h with ⟨h1, h2⟩
          simp only [List.mem_cons, not_or] at h2
          exact ⟨List.mem_cons_of_mem _ h1, h2.2⟩
      · rintro ⟨h1, h2⟩
        rcases List.mem_cons.mp h1 with rfl | h1
        · exact List.mem_cons_self _ _
        · by_cases hxa : x = a
          · subst hxa; exact List.mem_cons_self _ _
          · refine List.mem_cons_of_mem _ (ih.mpr ⟨h1, ?_⟩)
            simp only [List.mem_cons, not_or]
            exact ⟨hxa, h2⟩

theorem nodup_uniqAux {α : Type} [DecidableEq α] {l : List α} :
    ∀ {seen}, (uniqAux seen l).Nodup := by
  induction l with
  | nil => intro seen; simp [uniqAux]
  | cons a l ih =>
    intro seen
    by_cases ha : a ∈ seen
    · rw [uniqAux, if_pos ha]; exact ih
    · rw [uniqAux, if_neg ha]
      refine List.nodup_cons.mpr ⟨?_, ih⟩
      intro hmem
      exact (mem_uniqAux.mp hmem).2 (List.mem_cons_self _ _)

theorem mem_uniqueFirst {α : Type} [DecidableEq α] {x : α} {l : List α} :
    x ∈ uniqueFirst l ↔ x ∈ l := by
  rw [uniqueFirst, mem_uniqAux]
  simp

theorem nodup_uniqueFirst {α : Type} [DecidableEq α] {l : List α} :
    (uniqueFirst l).Nodup := nodup_uniqAux

/-- Helper of dropDupKeys: keep a row only when its business key was not seen
before, first occurrence first.  This is pandas
drop_duplicates(subset=['date', 'symbol', 'data_source']) with the default
keep='first'. -/
def dropDupAux (seen : List (String × String × String)) : List Row → List Row
  | [] => []
  | r :: rest =>
    if bkey r ∈ seen then dropDupAux seen rest
    else r :: dropDupAux (bkey r :: seen) rest

/-- Dedup step of merge_stock_datasets (transformers.py line 109). -/
def dropDupKeys (l : List Row) : List Row := dropDupAux [] l

theorem mem_of_mem_dropDupAux {l : List Row} :
    ∀ {seen r}, r ∈ dropDupAux seen l → r ∈ l := by
  induction l with
  | nil => intro seen r h; simp [dropDupAux] at h
  | cons a l ih =>
    intro seen r h
    by_cases ha : bkey a ∈ seen
    · rw [dropDupAux, if_pos ha] at h
      exact List.mem_cons_of_mem _ (ih h)
    · rw [dropDupAux, if_neg ha] at h
      rcases List.mem_cons.mp h with rfl | h
      · exact List.mem_cons_self _ _
      · exact List.mem_cons_of_mem _ (ih h)

theorem bkey_not_seen_of_mem_dropDupAux {l : List Row} :
    ∀ {seen r}, r ∈ dropDupAux seen l → bkey r ∉ seen := by
  induction l with
  | nil => intro seen r h; simp [dropDupAux] at h
  | cons a l ih =>
    intro seen r h
    by_cases ha : bkey a ∈ seen
    · rw [dropDupAux, if_pos ha] at h
      exact ih h
    · rw [dropDupAux, if_neg ha] at h
      rcases List.mem_cons.mp h with rfl | h
      · exact ha
      · intro hmem
        exact ih h (List.mem_cons_of_mem _ hmem)

theorem nodup_keys_dropDupAux {l : List Row} :
    ∀ {seen}, ((dropDupAux seen l).map bkey).Nodup := by
  induction l with
  | nil => intro seen; simp [dropDupAux]
  | cons a l ih =>
    intro seen
    by_cases ha : bkey a ∈ seen
    · rw [dropDupAux, if_pos ha]; exact ih
    · rw [dropDupAux, if_neg ha]
      rw [List.map_cons, List.nodup_cons]
      refine ⟨?_, ih⟩
      intro hmem
      rcases List.mem_map.mp hmem with ⟨r, hr, hk⟩
      exact bkey_not_seen_of_mem_dropDupAux hr (hk ▸ List.mem_cons_self _ _)

theorem mem_keys_dropDupAux {l : List Row} :
    ∀ {seen k}, k ∈ (dropDupAux seen l).map bkey ↔ k ∈ l.map bkey ∧ k ∉ seen := by
  induction l with
  | nil => intro seen k; simp [dropDupAux]
  | cons a l ih =>
    intro seen k
    by_cases ha : bkey a ∈ seen
    · rw [dropDupAux, if_pos ha, ih]
      simp only [List.map_cons, List.mem_cons]
      constructor
      · rintro ⟨h1, h2⟩
        exact ⟨Or.inr h1, h2⟩
      · rintro ⟨h1 | h1, h2⟩
        · exact absurd (h1 ▸ ha) h2
        · exact ⟨h1, h2⟩
    · rw [dropDupAux, if_neg ha]
      simp only [List.map_cons, List.mem_cons, ih]
      constructor
      · rintro (rfl | ⟨h1, h2⟩)
        · exact ⟨Or.inl rfl, ha⟩
        · simp only [List.mem_cons, not_or] at h2
          exact ⟨Or.inr h1, h2.2⟩
      · rintro ⟨h1 | h1, h2⟩
        · exact Or.inl h1
        · by_cases hk : k = bkey a
          · exact Or.inl hk
          · refine Or.inr ⟨h1, ?_⟩
            simp only [List.mem_cons, not_or]
            exact ⟨hk, h2⟩

theorem find_first_of_mem_dropDupAux {l : List Row} :
    ∀ {seen r}, r ∈ dropDupAux seen l →
      l.find? (fun x => decide (bkey x = bkey r)) = some r := by
  induction l with
  | nil => intro seen r h; simp [dropDupAux] at h
  | cons a l ih =>
    intro seen r h
    by_cases ha : bkey a ∈ seen
    · rw [dropDupAux, if_pos ha] at h
      have hne : bkey a ≠ bkey r := by
        intro he
        exact bkey_not_seen_of_mem_dropDupAux h (he ▸ ha)
      rw [List.find?_cons_of_neg _ (by simp [hne])]
      exact ih h
    · rw [dropDupAux, if_neg ha] at h
      rcases List.mem_cons.mp h with rfl | h
      · exact List.find?_cons_of_pos _ (by simp)
      · have hnotin : bkey r ∉ (bkey a :: seen) := bkey_not_seen_of_mem_dropDupAux h
        have hne : bkey a ≠ bkey r := by
          intro he
          exact hnotin (he ▸ List.mem_cons_self _ _)
        rw [List.find?_cons_of_neg _ (by simp [hne])]
        exact ih h

theorem dropDupAux_eq_self {l : List Row} :
    ∀ {seen}, (l.map bkey).Nodup → (∀ r ∈ l, bkey r ∉ seen) → dropDupAux seen l = l := by
  induction l with
  | nil => intro seen _ _; simp [dropDupAux]
  | cons a l ih =>
    intro seen hnd hseen
    have ha : bkey a ∉ seen := hseen a (List.mem_cons_self _ _)
    rw [dropDupAux, if_neg ha]
    congr 1
    rw [List.map_cons, List.nodup_cons] at hnd
    refine ih hnd.2 ?_
    intro r hr
    simp only [List.mem_cons, not_or]
    refine ⟨?_, hseen r (List.mem_cons_of_mem _ hr)⟩
    intro he
    exact hnd.1 (he ▸ List.mem_map_of_mem bkey hr)

/-- Error raised by merge_stock_datasets when no input file could be read
(transformers.py line 103, ValueError). -/
inductive MergeError
  | noValidDataFiles
deriving DecidableEq

/-- Rows of the merged dataset: concatenate all input tables, drop rows whose
(date, symbol, data_source) key already occurred, then sort by that same key
(transformers.py lines 106-117).  After the dedup all sort keys are distinct, so
the unstable pandas quicksort has a unique possible output, realised here by
insertion sort. -/
def mergeRows (tables : List (List Row)) : List Row :=
  List.insertionSort rowLe (dropDupKeys tables.flatten)

/-- merge_stock_datasets.  The argument is the list of successfully read input
tables: paths whose read raises are skipped by the read loop (lines 94-100), and an
entirely empty or unreadable file never yields a table, while a header-only CSV
yields an empty table that does count.  The function raises exactly when no table
was collected (line 102). -/
def merge_stock_datasets (tables : List (List Row)) : Except MergeError (List Row) :=
  if tables.isEmpty then Except.error MergeError.noValidDataFiles
  else Except.ok (mergeRows tables)

/-- Warning kinds a merge report could carry. -/
inductive MergeWarning
  | duplicatesRemoved (n : ℕ)
deriving DecidableEq

/-- Warnings emitted by merge_stock_datasets: the source emits none.  Duplicates
are dropped silently; the function logs only the merged record count at info level
and returns the output path (transformers.py lines 119-125), so its warning output
is the empty list. -/
def mergeWarnings (_tables : List (List Row)) : List MergeWarning := []

/-- Embedding of pd.to_datetime on one canonical date string: accepts YYYY-MM-DD
with a plausible month and day and yields the key y * 10000 + m * 100 + d, whose
numeric order is the chronological order of valid dates; a string pandas cannot
parse raises there and is embedded as none. -/
def parseDate (s : String) : Option ℕ :=
  match s.data with
  | [y1, y2, y3, y4, h1, m1, m2, h2, d1, d2] =>
    if y1.isDigit ∧ y2.isDigit ∧ y3.isDigit ∧ y4.isDigit ∧ h1 = '-' ∧
       m1.isDigit ∧ m2.isDigit ∧ h2 = '-' ∧ d1.isDigit ∧ d2.isDigit then
      let y := (y1.toNat - 48) * 1000 + (y2.toNat - 48) * 100 + (y3.toNat - 48) * 10 + (y4.toNat - 48)
      let m := (m1.toNat - 48) * 10 + (m2.toNat - 48)
      let d := (d1.toNat - 48) * 10 + (d2.toNat - 48)
      if 1 ≤ m ∧ m ≤ 12 ∧ 1 ≤ d ∧ d ≤ 31 then some (y * 10000 + m * 100 + d) else none
    else none
  | _ => none

/-- A DataFrame handle: the typed rows plus the optional date_temp scratch column of
parsed date keys, which validate_raw_data writes onto its input frame (validators.py
lines 124-128).  A freshly read table has dateTemp none. -/
structure Frame where
  rows : List Row
  dateTemp : Option (List ℕ)
deriving DecidableEq

/-- Metrics block of a validation report: row count, distinct symbol count and the
min/max date strings.  The per-column null-count mapping (and, for the transformed
report, the per-source row counts) carries no information any claim touches and is
omitted from the model. -/
structure Metrics where
  record_count : ℕ
  symbol_count : ℕ
  date_min : Option String
  date_max : Option String
deriving DecidableEq

/-- Error entries a validation report can accumulate (each stands for the
corresponding message string built by validators.py).  The missingColumns and
schemaFailed entries exist in the source but are unreachable on the typed rows of
this embedding; validationError is the catch-all except branch. -/
inductive VErr
  | emptyDataFrame
  | missingColumns
  | schemaFailed
  | negativeClose
  | futureDates (n : ℕ)
  | validationError
deriving DecidableEq

/-- Warning entries a validation report can accumulate. -/
inductive VWarn
  | oldData
  | duplicates (n : ℕ)
  | highPrice (p : ℚ)
  | highVolume (v : ℤ)
  | highVolatility (n : ℕ)
  | priceInconsistency (symbol date : String) (spread : ℚ)
deriving DecidableEq

/-- The validation_results dictionary returned by every validator. -/
structure VReport where
  passed : Bool
  errors : List VErr
  warnings : List VWarn
  metrics : Option Metrics
deriving DecidableEq

/-- Smaller of two strings in code-point order (pandas Series.min on an object
column compares Python strings). -/
def minStr (a b : String) : String := if strKey a ≤ strKey b then a else b

/-- Larger of two strings in code-point order. -/
def maxStr (a b : String) : String := if strKey b ≤ strKey a then a else b

/-- Series.min over a date-string column; an empty column has no minimum. -/
def strMin : List String → Option String
  | [] => none
  | s :: ss => some (ss.foldl minStr s)

/-- Series.max over a date-string column. -/
def strMax : List String → Option String
  | [] => none
  | s :: ss => some (ss.foldl maxStr s)

/-- Python builtin max over a nonempty list of prices (the [] case is unreachable
where this is used: callers guard on the group having more than one row). -/
def foldMax : List ℚ → ℚ
  | [] => 0
  | c :: cs => cs.foldl max c

/-- Python builtin min over a nonempty list of prices. -/
def foldMin : List ℚ → ℚ
  | [] => 0
  | c :: cs => cs.foldl min c

/-- Cross-source price spread of a group of close prices:
(max(close) - min(close)) / min(close) * 100 (validators.py line 240). -/
def spreadPct (closes : List ℚ) : ℚ :=
  (foldMax closes - foldMin closes) / foldMin closes * 100

/-- Series.max over the close column, none on an empty table (pandas yields NaN
there, which satisfies no warning comparison). -/
def maxClose (rows : List Row) : Option ℚ :=
  match rows.map (fun r => r.close) with
  | [] => none
  | c :: cs => some (cs.foldl max c)

/-- Series.max over the nullable volume column: nulls are skipped, and an all-null
or empty column yields NaN, embedded as none. -/
def maxVolume (rows : List Row) : Option ℤ :=
  match rows.filterMap (fun r => r.volume) with
  | [] => none
  | v :: vs => some (vs.foldl max v)

/-- Rows of the table carrying a given symbol (validators.py line 235). -/
def symRows (df : List Row) (s : String) : List Row :=
  df.filter (fun r => decide (r.symbol = s))

/-- Rows of the table carrying a given symbol and date (validators.py line 237). -/
def groupRows (df : List Row) (s d : String) : List Row :=
  (symRows df s).filter (fun r => decide (r.date = d))

/-- Cross-source consistency block of validate_transformed_data (validators.py
lines 231-244): when the table holds more than one distinct data_source, iterate
the distinct symbols and, per symbol, the distinct dates in first-appearance order;
for every (symbol, date) group with more than one row compute the close-price
spread and emit one warning when it exceeds 5. -/
def crossWarnings (df : List Row) : List VWarn :=
  if 1 < (uniqueFirst (df.map (fun r => r.data_source))).length then
    (uniqueFirst (df.map (fun r => r.symbol))).flatMap (fun s =>
      (uniqueFirst ((symRows df s).map (fun r => r.date))).flatMap (fun d =>
        if 1 < (groupRows df s d).length then
          if 5 < spreadPct ((groupRows df s d).map (fun r => r.close)) then
            [VWarn.priceInconsistency s d (spreadPct ((groupRows df s d).map (fun r => r.close)))]
          else []
        else []))
  else []

/-- Structural pandera validation (raw alpha_vantage, raw yahoo_finance and
transformed schemas, validators.py lines 11-61): column presence, dtype and
nullability checks.  On the typed rows of this embedding every declared structural
constraint holds by construction, so the check always succeeds and its failure
branch is unreachable in the model. -/
def schemaOk (_rows : List Row) : Bool := true

/-- High-price warning of validate_transformed_data (validators.py lines 200-202):
warn when the maximum close exceeds the 10000 threshold. -/
def transWarnPrice (rows : List Row) : List VWarn :=
  match maxClose rows with
  | some m => if 10000 < m then [VWarn.highPrice m] else []
  | none => []

/-- High-volume warning (validators.py lines 205-208): warn when the maximum
volume exceeds one billion shares. -/
def transWarnVolume (rows : List Row) : List VWarn :=
  match maxVolume rows with
  | some v => if 1000000000 < v then [VWarn.highVolume v] else []
  | none => []

/-- High-volatility warning (validators.py lines 211-215): count the rows whose
daily_volatility exceeds 20 (a null never does) and warn when any exist. -/
def transWarnVolatility (rows : List Row) : List VWarn :=
  let hv := (rows.filter (fun r => match r.daily_volatility with
    | some v => decide (20 < v)
    | none => false)).length
  if 0 < hv then [VWarn.highVolatility hv] else []

/-- Duplicate-count warning of the transformed validator (validators.py lines
227-229): pandas duplicated(subset).sum() counts every occurrence after the first
of each (date, symbol, data_source) key. -/
def transWarnDup (rows : List Row) : List VWarn :=
  let dups := rows.length - (uniqueFirst (rows.map bkey)).length
  if 0 < dups then [VWarn.duplicates dups] else []

/-- Metrics block computed by both validators (validators.py lines 139-144 and
218-224): row count, distinct symbol count, min and max date string. -/
def tableMetrics (rows : List Row) : Metrics :=
  ⟨rows.length, (uniqueFirst (rows.map (fun r => r.symbol))).length,
    strMin (rows.map (fun r => r.date)), strMax (rows.map (fun r => r.date))⟩

/-- validate_transformed_data (validators.py lines 165-251).  Checks in source
order: pandera schema, negative close (early returns), then the warning-only
checks: high price, high volume, high volatility count, metrics, duplicate count on
(date, symbol, data_source), and the cross-source consistency block.  The function
never writes to its input frame, which is returned unchanged. -/
def validate_transformed_data (df : Frame) : VReport × Frame :=
  if ¬ schemaOk df.rows then (⟨false, [VErr.schemaFailed], [], none⟩, df)
  else if df.rows.any (fun r => decide (r.close < 0)) then
    (⟨false, [VErr.negativeClose], [], none⟩, df)
  else
    (⟨true, [],
      transWarnPrice df.rows ++ transWarnVolume df.rows ++ transWarnVolatility df.rows ++
        transWarnDup df.rows ++ crossWarnings df.rows,
      some (tableMetrics df.rows)⟩, df)

/-- Embedding of pd.to_datetime over a whole date column: all strings parse and the
column of keys is produced, or the call raises (none). -/
def parseAll : List String → Option (List ℕ)
  | [] => some []
  | s :: rest =>
    match parseDate s, parseAll rest with
    | some k, some ks => some (k :: ks)
    | _, _ => none

/-- Old-data warning of validate_raw_data (validators.py lines 147-150): warn when
the oldest date lies more than 365 days before the clock; oldCutoff is the key of
now minus 365 days.  At this point of the source the whole column has already been
parsed successfully, so the bind never fails. -/
def rawWarnOld (rows : List Row) (oldCutoff : ℕ) : List VWarn :=
  match (strMin (rows.map (fun r => r.date))).bind parseDate with
  | some k => if k < oldCutoff then [VWarn.oldData] else []
  | none => []

/-- Duplicate-count warning of the raw validator (validators.py lines 152-155):
counted on the (date, symbol) pair only. -/
def rawWarnDup (rows : List Row) : List VWarn :=
  let dups := rows.length - (uniqueFirst (rows.map (fun r => (r.date, r.symbol)))).length
  if 0 < dups then [VWarn.duplicates dups] else []

/-- validate_raw_data (validators.py lines 64-162).  Checks in source order: empty
frame, required columns and the per-source pandera schema (both always satisfied on
typed rows; the validationType argument only selects which schema, so it does not
influence the model), negative close, date conversion (a malformed date raises in
pd.to_datetime and lands in the catch-all except branch, before the date_temp
column is assigned), the future-date check, then metrics and the old-data and
duplicate-count warnings.  today is the run clock pd.Timestamp.now().normalize()
and oldCutoff the key of now minus 365 days, both passed in as the external clock.
Once the date conversion succeeds the input frame has been mutated: the returned
frame carries the date_temp column. -/
def validate_raw_data (_validationType : Option String) (df : Frame)
    (today oldCutoff : ℕ) : VReport × Frame :=
  if df.rows.isEmpty then (⟨false, [VErr.emptyDataFrame], [], none⟩, df)
  else if df.rows.any (fun r => decide (r.close < 0)) then
    (⟨false, [VErr.negativeClose], [], none⟩, df)
  else
    match parseAll (df.rows.map (fun r => r.date)) with
    | none => (⟨false, [VErr.validationError], [], none⟩, df)
    | some keys =>
      let dfTemp : Frame := ⟨df.rows, some keys⟩
      let future := (keys.filter (fun k => decide (today < k))).length
      if 0 < future then (⟨false, [VErr.futureDates future], [], none⟩, dfTemp)
      else
        (⟨true, [], rawWarnOld df.rows oldCutoff ++ rawWarnDup df.rows,
          some (tableMetrics df.rows)⟩, dfTemp)

/-- One record of a raw source CSV as read by transform_stock_data: every price may
be null in the file, volume may be null, extracted_at is the capture stamp. -/
structure RawRow where
  date : String
  symbol : String
  openPrice : Option ℚ
  high : Option ℚ
  low : Option ℚ
  close : Option ℚ
  volume : Option ℤ
  data_source : String
  extracted_at : String
deriving DecidableEq

/-- One record of the transformed CSV written by transform_stock_data: volume has
been null-filled to an integer, processed_at stamped, and the two derived metric
columns added (null when any of their inputs was null, as NaN propagates through
the pandas column arithmetic). -/
structure TRow where
  date : String
  symbol : String
  openPrice : Option ℚ
  high : Option ℚ
  low : Option ℚ
  close : Option ℚ
  volume : ℤ
  data_source : String
  processed_at : String
  daily_change_pct : Option ℚ
  daily_volatility : Option ℚ
deriving DecidableEq

/-- Rounding of numpy: nearest integer, ties to the even neighbour (Series.round
rounds float64 half-to-even; binary-representation artefacts of float64 are
outside the rational model). -/
def roundHalfEven (q : ℚ) : ℤ :=
  let n := ⌊q⌋
  if q - n < 1 / 2 then n
  else if 1 / 2 < q - n then n + 1
  else if n % 2 = 0 then n else n + 1

/-- Series.round(2) (transformers.py lines 62 and 65). -/
def round2 (q : ℚ) : ℚ := (roundHalfEven (q * 100) : ℚ) / 100

/-- Sort key of transform_stock_data: sort_values(['symbol', 'date']). -/
def transKey (t : TRow) : Lex (List ℕ × List ℕ) := toLex (strKey t.symbol, strKey t.date)

/-- Row order of the transformed output sort. -/
def trowLe (a b : TRow) : Prop := transKey a ≤ transKey b

instance : DecidableRel trowLe := fun a b => inferInstanceAs (Decidable (transKey a ≤ transKey b))

instance : IsTotal TRow trowLe := ⟨fun a b => le_total (transKey a) (transKey b)⟩

instance : IsTrans TRow trowLe := ⟨fun _ _ _ h1 h2 => le_trans h1 h2⟩

/-- Failures transform_stock_data can raise: ValueError on an unknown source
(transformers.py line 41), or the exception pd.to_datetime raises on a date string
it cannot parse (lines 31-38, uncaught). -/
inductive TransformError
  | unknownSource
  | dateParseFailed
deriving DecidableEq

/-- Row-wise effect of the common transformations (transformers.py lines 43-65):
date kept in canonical form (the to_datetime / strftime round trip is the identity
on the canonical strings this model admits), prices cast to float, volume
null-filled with 0 and cast to integer, processed_at stamped, and the derived
columns daily_change_pct = round2((close - open) / open * 100) and
daily_volatility = round2((high - low) / open * 100), null when an input is null.
A zero open price yields a non-finite float in the source, outside this model;
theorems about the formulas assume open is nonzero. -/
def mkTRow (processedAt : String) (r : RawRow) : TRow :=
  { date := r.date
    symbol := r.symbol
    openPrice := r.openPrice
    high := r.high
    low := r.low
    close := r.close
    volume := r.volume.getD 0
    data_source := r.data_source
    processed_at := processedAt
    daily_change_pct :=
      match r.close, r.openPrice with
      | some c, some o => some (round2 ((c - o) / o * 100))
      | _, _ => none
    daily_volatility :=
      match r.high, r.low, r.openPrice with
      | some h, some l, some o => some (round2 ((h - l) / o * 100))
      | _, _, _ => none }

/-- transform_stock_data (transformers.py lines 10-76).  Only the two known
sources are accepted; both branches merely normalise the date column, raising
through pd.to_datetime when a date cannot be parsed.  The common part applies
mkTRow to every row and sorts the output by (symbol, date). -/
def transform_stock_data (rows : List RawRow) (source : String) (processedAt : String) :
    Except TransformError (List TRow) :=
  if source = "alpha_vantage" ∨ source = "yahoo_finance" then
    match parseAll (rows.map (fun r => r.date)) with
    | none => Except.error TransformError.dateParseFailed
    | some _ => Except.ok (List.insertionSort trowLe (rows.map (mkTRow processedAt)))
  else Except.error TransformError.unknownSource

/-- State of the warehouse: each table id maps to its current rows. -/
def Store : Type := String → List Row

/-- Replace the contents of one table. -/
def setTable (st : Store) (tableId : String) (rows : List Row) : Store :=
  fun t => if t = tableId then rows else st t

/-- Status tag of a load result dictionary. -/
inductive LoadStatus
  | success
  | error
deriving DecidableEq

/-- A GoogleCloudError the external service raises during one API step, identified
by an abstract code.  The model takes the error a step will encounter (if any) as
an input, since the failure originates outside the program. -/
inductive GCError
  | gcError (code : ℕ)
deriving DecidableEq

/-- Result dictionary of load_to_bigquery. -/
structure LoadResult where
  status : LoadStatus
  rows_loaded : Option ℕ
  table_rows : Option ℕ
  errorDetail : Option GCError
deriving DecidableEq

/-- BigQuery write dispositions used by the loaders. -/
inductive WriteDisposition
  | writeAppend
  | writeTruncate
deriving DecidableEq

/-- load_to_bigquery (loaders.py lines 12-80): run a CSV load job with the given
write disposition.  A GoogleCloudError from the service (stepError) is caught and
reported as a status-error result with the state unchanged, never raised. -/
def load_to_bigquery (stepError : Option GCError) (st : Store) (data : List Row)
    (tableId : String) (disposition : WriteDisposition) : LoadResult × Store :=
  match stepError with
  | some e => (⟨LoadStatus.error, none, none, some e⟩, st)
  | none =>
    let newRows := match disposition with
      | WriteDisposition.writeAppend => st tableId ++ data
      | WriteDisposition.writeTruncate => data
    (⟨LoadStatus.success, some data.length, some newRows.length, none⟩,
      setTable st tableId newRows)

/-- Result dictionary of upsert_to_bigquery. -/
structure UpsertResult where
  status : LoadStatus
  rows_affected : Option ℕ
  errorDetail : Option GCError
deriving DecidableEq

/-- SQL MERGE of the staged rows into the destination on equality of the key
columns (loaders.py lines 160-173), with the key projection abstracted as keyOf: a
destination row matched by a staged row has every non-key column overwritten,
making it equal to that staged row (their keys already agree); staged rows
matching no destination row are inserted. -/
def mergeInto {κ : Type} [DecidableEq κ] (keyOf : Row → κ) (dest staged : List Row) :
    List Row :=
  dest.map (fun t => match staged.find? (fun s => decide (keyOf s = keyOf t)) with
    | some s => s
    | none => t)
  ++ staged.filter (fun s => ! dest.any (fun t => decide (keyOf s = keyOf t)))

/-- Rows affected by the MERGE: matched destination rows plus inserted rows. -/
def affectedCount {κ : Type} [DecidableEq κ] (keyOf : Row → κ) (dest staged : List Row) : ℕ :=
  (dest.filter (fun t => staged.any (fun s => decide (keyOf s = keyOf t)))).length
  + (staged.filter (fun s => ! dest.any (fun t => decide (keyOf s = keyOf t)))).length

/-- upsert_to_bigquery (loaders.py lines 107-190): first load the input into the
staging table with WRITE_TRUNCATE, overwriting whatever a previous attempt left
there; when that load fails, return its error result without touching the
destination.  Otherwise run the MERGE query, catching a GoogleCloudError from the
service as a status-error result.  loadError and queryError inject the
external-service outcome of the two steps. -/
def upsert_to_bigquery {κ : Type} [DecidableEq κ] (st : Store) (data : List Row)
    (tableId tempTableId : String) (keyOf : Row → κ)
    (loadError queryError : Option GCError) : UpsertResult × Store :=
  let staged := load_to_bigquery loadError st data tempTableId WriteDisposition.writeTruncate
  if staged.1.status ≠ LoadStatus.success then
    (⟨LoadStatus.error, none, staged.1.errorDetail⟩, staged.2)
  else
    match queryError with
    | some e => (⟨LoadStatus.error, none, some e⟩, staged.2)
    | none =>
      let newDest := mergeInto keyOf (staged.2 tableId) (staged.2 tempTableId)
      (⟨LoadStatus.success,
        some (affectedCount keyOf (staged.2 tableId) (staged.2 tempTableId)), none⟩,
        setTable staged.2 tableId newDest)

theorem nodup_keys_dropDupKeys (l : List Row) : ((dropDupKeys l).map bkey).Nodup :=
  nodup_keys_dropDupAux

theorem dropDupKeys_eq_self {l : List Row} (h : (l.map bkey).Nodup) : dropDupKeys l = l :=
  dropDupAux_eq_self h (by intro r _ hmem; exact (List.not_mem_nil _) hmem)

theorem nodup_keys_mergeRows (tables : List (List Row)) :
    ((mergeRows tables).map bkey).Nodup := by
  have hperm : (List.insertionSort rowLe (dropDupKeys tables.flatten)).Perm
      (dropDupKeys tables.flatten) := List.perm_insertionSort rowLe _
  exact ((hperm.map bkey).nodup_iff).mpr nodup_keys_dropDupAux

theorem sorted_mergeRows (tables : List (List Row)) : List.Sorted rowLe (mergeRows tables) := by
  rw [mergeRows]
  exact List.sorted_insertionSort rowLe _

theorem mergeRows_single_idem (T : List Row) : mergeRows [mergeRows [T]] = mergeRows [T] := by
  have hnd : ((mergeRows [T]).map bkey).Nodup := nodup_keys_mergeRows [T]
  have hflat : ([mergeRows [T]] : List (List Row)).flatten = mergeRows [T] := by simp
  rw [mergeRows, hflat, dropDupKeys_eq_self hnd]
  exact List.Sorted.insertionSort_eq (sorted_mergeRows [T])

/-- C3 counterexample: a single successfully read but empty table — all inputs are
empty after concatenation — does not raise: merge returns an empty merged table
(merge_stock_datasets only checks whether the list of collected tables is empty). -/
theorem merge_empty_input_tables_ok :
    merge_stock_datasets [([] : List Row)] = Except.ok [] := rfl

/-- C3 (amended): merge_stock_datasets raises its NoDataError exactly when the
list of successfully read input tables is empty (an unreadable or zero-byte file
is skipped by the read loop and collects nothing); every non-empty list of
tables — even a list of empty tables whose concatenation is empty — returns
normally. -/
theorem merge_error_iff_no_tables (tables : List (List Row)) :
    (merge_stock_datasets tables = Except.error MergeError.noValidDataFiles ↔ tables = []) ∧
    (tables ≠ [] → merge_stock_datasets tables = Except.ok (mergeRows tables)) := by
  constructor
  · constructor
    · intro h
      by_cases ht : tables.isEmpty = true
      · exact List.isEmpty_iff.mp ht
      · rw [merge_stock_datasets, if_neg ht] at h
        cases h
    · rintro rfl
      rfl
  · intro h
    rw [merge_stock_datasets, if_neg (by simpa [List.isEmpty_iff] using h)]

theorem merge_error_iff_no_tables_witness :
    ([([] : List Row)] ≠ ([] : List (List Row))) ∧
    merge_stock_datasets [([] : List Row)] = Except.ok (mergeRows [([] : List Row)]) :=
  ⟨by decide, (merge_error_iff_no_tables [([] : List Row)]).2 (by decide)⟩

/-- C9: dedup is idempotent — merge of the single-table list containing the output
of merge([T]) returns exactly that output, same rows in the same order: on merge
output the business keys are pairwise distinct, so the dedup removes nothing, and
the list is already sorted by the sort key, so the sort is the identity. -/
theorem merge_idempotent (T : List Row) :
    merge_stock_datasets [T] = Except.ok (mergeRows [T]) ∧
    merge_stock_datasets [mergeRows [T]] = Except.ok (mergeRows [T]) := by
  refine ⟨rfl, ?_⟩
  have h : merge_stock_datasets [mergeRows [T]] = Except.ok (mergeRows [mergeRows [T]]) := rfl
  rw [h, mergeRows_single_idem]

/-- C2 (amended): the dedup step of merge drops rows sharing the full business key
(date, symbol, data_source), keeping the first-seen row of each key (equivalently,
the first under a stable sort by that same key); the output carries exactly one
row per input business key and is sorted by the key — but the number of rows
removed is reported nowhere: merge emits no warnings, it only logs the merged
record count. -/
theorem merge_dedup_semantics (tables : List (List Row)) (hne : tables ≠ []) :
    merge_stock_datasets tables = Except.ok (mergeRows tables) ∧
    ((mergeRows tables).map bkey).Nodup ∧
    (∀ r ∈ mergeRows tables,
      tables.flatten.find? (fun x => decide (bkey x = bkey r)) = some r) ∧
    (∀ k, k ∈ (mergeRows tables).map bkey ↔ k ∈ tables.flatten.map bkey) ∧
    List.Sorted rowLe (mergeRows tables) ∧
    mergeWarnings tables = [] := by
  refine ⟨?_, nodup_keys_mergeRows tables, ?_, ?_, sorted_mergeRows tables, rfl⟩
  · rw [merge_stock_datasets, if_neg (by simpa [List.isEmpty_iff] using hne)]
  · intro r hr
    rw [mergeRows, List.mem_insertionSort] at hr
    exact find_first_of_mem_dropDupAux hr
  · intro k
    have hperm := (List.perm_insertionSort rowLe (dropDupKeys tables.flatten)).map bkey
    rw [mergeRows, hperm.mem_iff]
    rw [show dropDupKeys tables.flatten = dropDupAux [] tables.flatten from rfl,
      mem_keys_dropDupAux]
    simp

/-- Concrete transformed row used by the merge examples: the AAPL 2023-09-01
alpha_vantage record of the spec example. -/
def dupRow : Row :=
  ⟨"2023-09-01", "AAPL", some 100, some 120, some 90, 110, some 1000,
    "alpha_vantage", "t0", some 10, some 30⟩

/-- C2 counterexample: the identical (2023-09-01, AAPL, alpha_vantage) row appears
twice; merge keeps exactly one copy, yet no warning records the removal — the
warning output of merge is empty, with no "1 duplicate removed" entry. -/
theorem merge_dedup_count_unreported :
    merge_stock_datasets [[dupRow, dupRow]] = Except.ok [dupRow] ∧
    MergeWarning.duplicatesRemoved 1 ∉ mergeWarnings [[dupRow, dupRow]] := by
  refine ⟨rfl, ?_⟩
  intro h
  simp [mergeWarnings] at h

theorem merge_dedup_semantics_witness :
    ([[dupRow, dupRow]] : List (List Row)) ≠ [] ∧
    (merge_stock_datasets [[dupRow, dupRow]] = Except.ok (mergeRows [[dupRow, dupRow]]) ∧
    ((mergeRows [[dupRow, dupRow]]).map bkey).Nodup ∧
    (∀ r ∈ mergeRows [[dupRow, dupRow]],
      ([[dupRow, dupRow]] : List (List Row)).flatten.find?
        (fun x => decide (bkey x = bkey r)) = some r) ∧
    (∀ k, k ∈ (mergeRows [[dupRow, dupRow]]).map bkey ↔
      k ∈ ([[dupRow, dupRow]] : List (List Row)).flatten.map bkey) ∧
    List.Sorted rowLe (mergeRows [[dupRow, dupRow]]) ∧
    mergeWarnings [[dupRow, dupRow]] = []) :=
  ⟨by decide, merge_dedup_semantics [[dupRow, dupRow]] (by decide)⟩

/-- C7 counterexample: validating a well-formed one-row raw table mutates the
caller's frame — the frame after the call carries the date_temp column pandas
assigned at validators.py line 126, so it differs from the input frame. -/
theorem validate_raw_mutates_input :
    (validate_raw_data none ⟨[⟨"2023-09-01", "AAPL", some 100, some 120, some 90, 110,
      some 1000, "alpha_vantage", "t0", none, none⟩], none⟩ 20230905 20220905).2 ≠
    ⟨[⟨"2023-09-01", "AAPL", some 100, some 120, some 90, 110,
      some 1000, "alpha_vantage", "t0", none, none⟩], none⟩ := by decide

/-- C7 (amended): validation never changes the rows of the input table:
validate_transformed_data returns its input frame fully unchanged, and
validate_raw_data preserves the rows, its only effect beyond the report being the
date_temp scratch column it may add. -/
theorem validate_preserves_rows (vt : Option String) (df : Frame) (today oldCutoff : ℕ) :
    (validate_raw_data vt df today oldCutoff).2.rows = df.rows ∧
    (validate_transformed_data df).2 = df := by
  constructor
  · unfold validate_raw_data
    split
    · rfl
    · split
      · rfl
      · split
        · rfl
        · dsimp only
          split
          · rfl
          · rfl
  · unfold validate_transformed_data
    split
    · rfl
    · split
      · rfl
      · rfl

/-- C5: any row with a negative close makes both validators return passed false
with a non-empty errors list (the negative-close check sits before the date checks
in the raw validator and right after the schema check in the transformed one). -/
theorem negative_close_fails_validation (vt : Option String) (df : Frame)
    (today oldCutoff : ℕ) (h : ∃ r ∈ df.rows, r.close < 0) :
    ((validate_raw_data vt df today oldCutoff).1.passed = false ∧
      (validate_raw_data vt df today oldCutoff).1.errors ≠ []) ∧
    ((validate_transformed_data df).1.passed = false ∧
      (validate_transformed_data df).1.errors ≠ []) := by
  obtain ⟨r, hr, hneg⟩ := h
  have hany : df.rows.any (fun r => decide (r.close < 0)) = true :=
    List.any_eq_true.mpr ⟨r, hr, by simpa using hneg⟩
  have hne : ¬ df.rows.isEmpty = true := by
    intro he
    rw [List.isEmpty_iff] at he
    rw [he] at hr
    exact (List.not_mem_nil r) hr
  constructor
  · rw [validate_raw_data, if_neg hne, if_pos hany]
    exact ⟨rfl, by simp⟩
  · rw [validate_transformed_data, if_neg (by simp [schemaOk]), if_pos hany]
    exact ⟨rfl, by simp⟩

/-- Raw record with a negative close used by the C5 witness. -/
def negRow : Row :=
  ⟨"2023-09-01", "AAPL", some 100, some 120, some 90, -5, some 1000,
    "alpha_vantage", "t0", none, none⟩

theorem negative_close_fails_validation_witness :
    (∃ r ∈ (⟨[negRow], none⟩ : Frame).rows, r.close < 0) ∧
    (((validate_raw_data none ⟨[negRow], none⟩ 20230905 20220905).1.passed = false ∧
      (validate_raw_data none ⟨[negRow], none⟩ 20230905 20220905).1.errors ≠ []) ∧
    ((validate_transformed_data ⟨[negRow], none⟩).1.passed = false ∧
      (validate_transformed_data ⟨[negRow], none⟩).1.errors ≠ [])) :=
  ⟨⟨negRow, by decide, by decide⟩,
    negative_close_fails_validation none ⟨[negRow], none⟩ 20230905 20220905
      ⟨negRow, by decide, by decide⟩⟩

theorem parseAll_eq_none {dates : List String} {s : String} (hs : s ∈ dates)
    (hp : parseDate s = none) : parseAll dates = none := by
  induction dates with
  | nil => cases hs
  | cons a rest ih =>
    rcases List.mem_cons.mp hs with rfl | hs2
    · rw [parseAll, hp]
    · rw [parseAll, ih hs2]
      cases parseDate a <;> rfl

theorem parseAll_length {dates : List String} :
    ∀ {keys : List ℕ}, parseAll dates = some keys → keys.length = dates.length := by
  induction dates with
  | nil =>
    intro keys h
    rw [parseAll] at h
    cases h
    rfl
  | cons a rest ih =>
    intro keys h
    rw [parseAll] at h
    cases hpa : parseDate a with
    | none => rw [hpa] at h; cases h
    | some k =>
      rw [hpa] at h
      cases hpr : parseAll rest with
      | none => rw [hpr] at h; cases h
      | some ks =>
        rw [hpr] at h
        cases h
        simp [ih hpr]

/-- C10: both validators are total functions of their input — each early return
carries passed false together with a non-empty errors list, the success return
carries passed true with no errors (so passed is false exactly when errors exist),
and an input whose date column pd.to_datetime cannot parse lands in the catch-all
except branch, which converts the exception into passed false with a
validation-error entry instead of raising. -/
theorem validators_never_raise (vt : Option String) (df : Frame) (today oldCutoff : ℕ) :
    ((validate_raw_data vt df today oldCutoff).1.passed = false ↔
      (validate_raw_data vt df today oldCutoff).1.errors ≠ []) ∧
    ((validate_transformed_data df).1.passed = false ↔
      (validate_transformed_data df).1.errors ≠ []) ∧
    ((∃ r ∈ df.rows, parseDate r.date = none) → (∀ r ∈ df.rows, 0 ≤ r.close) →
      (validate_raw_data vt df today oldCutoff).1.passed = false ∧
      VErr.validationError ∈ (validate_raw_data vt df today oldCutoff).1.errors) := by
  refine ⟨?_, ?_, ?_⟩
  · unfold validate_raw_data
    split
    · simp
    · split
      · simp
      · split
        · simp
        · dsimp only
          split
          · simp
          · simp
  · unfold validate_transformed_data
    split
    · simp
    · split
      · simp
      · simp
  · intro hbad hpos
    obtain ⟨r, hr, hp⟩ := hbad
    have hne : ¬ df.rows.isEmpty = true := by
      intro he
      rw [List.isEmpty_iff] at he
      rw [he] at hr
      exact (List.not_mem_nil r) hr
    have hany : df.rows.any (fun r => decide (r.close < 0)) = false := by
      rw [List.any_eq_false]
      intro x hx
      simpa using not_lt.mpr (hpos x hx)
    have hpn : parseAll (df.rows.map (fun r => r.date)) = none :=
      parseAll_eq_none (List.mem_map_of_mem _ hr) hp
    rw [validate_raw_data, if_neg hne, if_neg (by simp [hany]), hpn]
    exact ⟨rfl, by simp⟩

/-- Raw record whose date string pd.to_datetime cannot parse, for the C10
witness. -/
def badDateRow : Row :=
  ⟨"not-a-date", "AAPL", some 100, some 120, some 90, 110, some 1000,
    "alpha_vantage", "t0", none, none⟩

theorem validators_never_raise_witness :
    (validate_raw_data none ⟨[badDateRow], none⟩ 20230905 20220905).1.passed = false ∧
    VErr.validationError ∈
      (validate_raw_data none ⟨[badDateRow], none⟩ 20230905 20220905).1.errors :=
  (validators_never_raise none ⟨[badDateRow], none⟩ 20230905 20220905).2.2
    ⟨badDateRow, by decide, by decide⟩ (by decide)

/-- Transformed record dated 2999-12-31, strictly after any plausible run date. -/
def futureRow : Row :=
  ⟨"2999-12-31", "AAPL", some 100, some 120, some 90, 110, some 1000,
    "alpha_vantage", "t0", none, none⟩

/-- C6 counterexample: a transformed table whose single row is dated 2999-12-31 —
strictly after any plausible run date — passes validate_transformed_data with no
errors: the transformed validator performs no future-date check (its result does
not even depend on a clock), contradicting the claim that the check runs at both
stages. -/
theorem transformed_ignores_future_dates :
    (validate_transformed_data ⟨[futureRow], none⟩).1.passed = true ∧
    (validate_transformed_data ⟨[futureRow], none⟩).1.errors = [] := by decide

/-- C6 (amended): the future-date business check runs only at the raw stage.  A
raw table containing a row dated strictly after the run date (normalized to day)
fails with passed false and a future-dates error counting those rows; a raw table
whose dates are all on or before the run date never receives a future-dates error;
and the transformed validator never emits a future-dates error on any input. -/
theorem future_check_raw_only :
    (∀ (vt : Option String) (df : Frame) (today oldCutoff : ℕ) (keys : List ℕ),
      (∀ r ∈ df.rows, 0 ≤ r.close) →
      parseAll (df.rows.map (fun r => r.date)) = some keys →
      (∃ k ∈ keys, today < k) →
      (validate_raw_data vt df today oldCutoff).1.passed = false ∧
      VErr.futureDates ((keys.filter (fun k => decide (today < k))).length) ∈
        (validate_raw_data vt df today oldCutoff).1.errors) ∧
    (∀ (vt : Option String) (df : Frame) (today oldCutoff : ℕ) (keys : List ℕ),
      parseAll (df.rows.map (fun r => r.date)) = some keys →
      (∀ k ∈ keys, k ≤ today) →
      ∀ n, VErr.futureDates n ∉ (validate_raw_data vt df today oldCutoff).1.errors) ∧
    (∀ (df : Frame) (n : ℕ),
      VErr.futureDates n ∉ (validate_transformed_data df).1.errors) := by
  refine ⟨?_, ?_, ?_⟩
  · intro vt df today oldCutoff keys hpos hparse hfuture
    have hne : ¬ df.rows.isEmpty = true := by
      intro he
      rw [List.isEmpty_iff] at he
      obtain ⟨k, hk, _⟩ := hfuture
      rw [he] at hparse
      simp only [List.map_nil, parseAll] at hparse
      cases hparse
      exact (List.not_mem_nil k) hk
    have hany : df.rows.any (fun r => decide (r.close < 0)) = false := by
      rw [List.any_eq_false]
      intro x hx
      simpa using not_lt.mpr (hpos x hx)
    have hfut : 0 < (keys.filter (fun k => decide (today < k))).length := by
      obtain ⟨k, hk, hlt⟩ := hfuture
      have hmem : k ∈ keys.filter (fun k => decide (today < k)) :=
        List.mem_filter.mpr ⟨hk, by simpa using hlt⟩
      exact List.length_pos.mpr (List.ne_nil_of_mem hmem)
    rw [validate_raw_data, if_neg hne, if_neg (by simp [hany]), hparse]
    dsimp only
    rw [if_pos hfut]
    exact ⟨rfl, by simp⟩
  · intro vt df today oldCutoff keys hparse hle n
    rw [validate_raw_data]
    by_cases h1 : df.rows.isEmpty = true
    · rw [if_pos h1]; simp
    · rw [if_neg h1]
      by_cases h2 : df.rows.any (fun r => decide (r.close < 0)) = true
      · rw [if_pos h2]; simp
      · rw [if_neg h2, hparse]
        have hfz : keys.filter (fun k => decide (today < k)) = [] := by
          rw [List.filter_eq_nil_iff]
          intro k hk
          simpa using not_lt.mpr (hle k hk)
        dsimp only
        rw [hfz]
        simp
  · intro df n
    rw [validate_transformed_data]
    by_cases h2 : df.rows.any (fun r => decide (r.close < 0)) = true
    · rw [if_neg (by simp [schemaOk]), if_pos h2]; simp
    · rw [if_neg (by simp [schemaOk]), if_neg h2]; simp

theorem future_check_raw_only_witness :
    (validate_raw_data none ⟨[futureRow], none⟩ 20230905 20220905).1.passed = false ∧
    VErr.futureDates (([29991231].filter (fun k => decide ((20230905 : ℕ) < k))).length) ∈
      (validate_raw_data none ⟨[futureRow], none⟩ 20230905 20220905).1.errors :=
  future_check_raw_only.1 none ⟨[futureRow], none⟩ 20230905 20220905 [29991231]
    (by decide) (by decide) ⟨29991231, by decide, by decide⟩

theorem setTable_same (st : Store) (t : String) (rows : List Row) :
    setTable st t rows t = rows := by simp [setTable]

theorem setTable_other (st : Store) (t u : String) (rows : List Row) (h : u ≠ t) :
    setTable st t rows u = st u := by simp [setTable, h]

/-- C8: per load attempt, upsert first truncates the staging table — after a
successful staging load the staging table holds exactly the input rows, whatever a
previous attempt left there; an external-service error at either step yields a
status-error result instead of an exception (the embedding is a total function,
matching the GoogleCloudError handlers); and when the staging load fails the MERGE
is never executed and the warehouse state, the destination included, is
unchanged. -/
theorem upsert_staging_and_error_semantics {κ : Type} [DecidableEq κ] (st : Store)
    (data : List Row) (tableId tempTableId : String) (keyOf : Row → κ)
    (loadError queryError : Option GCError) (hdistinct : tableId ≠ tempTableId) :
    (loadError = none →
      (upsert_to_bigquery st data tableId tempTableId keyOf loadError queryError).2
        tempTableId = data) ∧
    ((upsert_to_bigquery st data tableId tempTableId keyOf loadError queryError).1.status =
        LoadStatus.error ↔ loadError ≠ none ∨ queryError ≠ none) ∧
    (loadError ≠ none →
      (upsert_to_bigquery st data tableId tempTableId keyOf loadError queryError).1.status =
        LoadStatus.error ∧
      (upsert_to_bigquery st data tableId tempTableId keyOf loadError queryError).2 = st) ∧
    (queryError ≠ none →
      (upsert_to_bigquery st data tableId tempTableId keyOf loadError queryError).1.status =
        LoadStatus.error ∧
      (upsert_to_bigquery st data tableId tempTableId keyOf loadError queryError).2
        tableId = st tableId) := by
  cases loadError with
  | some e =>
    have hred : upsert_to_bigquery st data tableId tempTableId keyOf (some e) queryError =
        (⟨LoadStatus.error, none, some e⟩, st) := rfl
    rw [hred]
    refine ⟨?_, ?_, ?_, ?_⟩
    · intro h; cases h
    · simp
    · intro _; exact ⟨rfl, rfl⟩
    · intro _; exact ⟨rfl, rfl⟩
  | none =>
    cases queryError with
    | some e =>
      have hred : upsert_to_bigquery st data tableId tempTableId keyOf none (some e) =
          (⟨LoadStatus.error, none, some e⟩, setTable st tempTableId data) := rfl
      rw [hred]
      refine ⟨?_, ?_, ?_, ?_⟩
      · intro _; exact setTable_same st tempTableId data
      · simp
      · intro h; exact absurd rfl h
      · intro _
        exact ⟨rfl, setTable_other st tempTableId tableId data hdistinct⟩
    | none =>
      have hred : upsert_to_bigquery st data tableId tempTableId keyOf none none =
          (⟨LoadStatus.success,
            some (affectedCount keyOf (setTable st tempTableId data tableId)
              (setTable st tempTableId data tempTableId)), none⟩,
            setTable (setTable st tempTableId data) tableId
              (mergeInto keyOf (setTable st tempTableId data tableId)
                (setTable st tempTableId data tempTableId))) := rfl
      rw [hred]
      refine ⟨?_, ?_, ?_, ?_⟩
      · intro _
        exact (setTable_other (setTable st tempTableId data) tableId tempTableId
          (mergeInto keyOf (setTable st tempTableId data tableId)
            (setTable st tempTableId data tempTableId)) (Ne.symm hdistinct)).trans
          (setTable_same st tempTableId data)
      · simp
      · intro h; exact absurd rfl h
      · intro h; exact absurd rfl h

theorem upsert_staging_and_error_semantics_witness :
    ("dest" : String) ≠ "staging" ∧
    ((none = (none : Option GCError) →
      (upsert_to_bigquery (fun _ => [dupRow]) [negRow] "dest" "staging" bkey none none).2
        "staging" = [negRow]) ∧
    ((upsert_to_bigquery (fun _ => [dupRow]) [negRow] "dest" "staging" bkey none none).1.status =
        LoadStatus.error ↔ (none : Option GCError) ≠ none ∨ (none : Option GCError) ≠ none) ∧
    ((none : Option GCError) ≠ none →
      (upsert_to_bigquery (fun _ => [dupRow]) [negRow] "dest" "staging" bkey none none).1.status =
        LoadStatus.error ∧
      (upsert_to_bigquery (fun _ => [dupRow]) [negRow] "dest" "staging" bkey none none).2 =
        (fun _ => [dupRow])) ∧
    ((none : Option GCError) ≠ none →
      (upsert_to_bigquery (fun _ => [dupRow]) [negRow] "dest" "staging" bkey none none).1.status =
        LoadStatus.error ∧
      (upsert_to_bigquery (fun _ => [dupRow]) [negRow] "dest" "staging" bkey none none).2
        "dest" = (fun _ => [dupRow]) "dest")) :=
  ⟨by decide,
    upsert_staging_and_error_semantics (fun _ => [dupRow]) [negRow] "dest" "staging" bkey
      none none (by decide)⟩

/-- C4: on every row of a successful transform whose open, high, low and close
inputs are all non-null, the derived fields carry exactly
round2((close - open) / open * 100) and round2((high - low) / open * 100); the
nonzero-open hypothesis marks the domain on which the rational embedding agrees
with the float arithmetic of the source (a zero open yields a non-finite float
there). -/
theorem transform_derived_fields (rows : List RawRow) (source processedAt : String)
    (out : List TRow) (hout : transform_stock_data rows source processedAt = Except.ok out)
    (t : TRow) (ht : t ∈ out) (o h l c : ℚ) (ho : t.openPrice = some o)
    (hh : t.high = some h) (hl : t.low = some l) (hc : t.close = some c) (_hoz : o ≠ 0) :
    t.daily_change_pct = some (round2 ((c - o) / o * 100)) ∧
    t.daily_volatility = some (round2 ((h - l) / o * 100)) := by
  rw [transform_stock_data] at hout
  by_cases hs : source = "alpha_vantage" ∨ source = "yahoo_finance"
  · rw [if_pos hs] at hout
    cases hp : parseAll (rows.map (fun r => r.date)) with
    | none => rw [hp] at hout; cases hout
    | some ks =>
      rw [hp] at hout
      cases hout
      rw [List.mem_insertionSort] at ht
      rcases List.mem_map.mp ht with ⟨r, _, rfl⟩
      simp only [mkTRow] at ho hh hl hc ⊢
      rw [hc, ho, hh, hl]
      exact ⟨rfl, rfl⟩
  · rw [if_neg hs] at hout
    cases hout

/-- Raw record of the C4 witness, with integer-valued prices. -/
def rawSample : RawRow :=
  ⟨"2023-09-01", "AAPL", some 100, some 120, some 90, some 110, some 1000,
    "alpha_vantage", "e0"⟩

theorem transform_derived_fields_witness :
    (mkTRow ("p0") rawSample).daily_change_pct = some (round2 ((110 - 100) / 100 * 100)) ∧
    (mkTRow ("p0") rawSample).daily_volatility = some (round2 ((120 - 90) / 100 * 100)) :=
  transform_derived_fields [rawSample] "alpha_vantage" "p0"
    (List.insertionSort trowLe ([rawSample].map (mkTRow ("p0")))) rfl
    (mkTRow ("p0") rawSample)
    (by rw [List.mem_insertionSort]; exact List.mem_cons_self _ _)
    100 120 90 110 rfl rfl rfl rfl (by decide)

theorem countP_flatMap_zero {α β : Type} (p : β → Bool) (f : α → List β) {l : List α}
    (h : ∀ a ∈ l, (f a).countP p = 0) : (l.flatMap f).countP p = 0 := by
  induction l with
  | nil => simp
  | cons a l ih =>
    rw [List.flatMap_cons, List.countP_append, h a (List.mem_cons_self _ _),
      ih (fun b hb => h b (List.mem_cons_of_mem _ hb))]

theorem countP_flatMap_single {α β : Type} (p : β → Bool) (f : α → List β) {l : List α}
    {a : α} (hnd : l.Nodup) (ha : a ∈ l) (hz : ∀ b ∈ l, b ≠ a → (f b).countP p = 0) :
    (l.flatMap f).countP p = (f a).countP p := by
  induction l with
  | nil => cases ha
  | cons b l ih =>
    rw [List.flatMap_cons, List.countP_append]
    rcases List.mem_cons.mp ha with rfl | ha2
    · have hzero : (l.flatMap f).countP p = 0 :=
        countP_flatMap_zero p f (fun c hc => hz c (List.mem_cons_of_mem _ hc)
          (fun hca => (List.nodup_cons.mp hnd).1 (hca ▸ hc)))
      rw [hzero]
      simp
    · have hb : (f b).countP p = 0 :=
        hz b (List.mem_cons_self _ _) (fun hba => (List.nodup_cons.mp hnd).1 (hba ▸ ha2))
      rw [hb, ih (List.nodup_cons.mp hnd).2 ha2
        (fun c hc hca => hz c (List.mem_cons_of_mem _ hc) hca)]
      simp

/-- Predicate matching the warnings of a report that name a given symbol and
date — the form of the price-inconsistency message of validators.py line 243. -/
def namesGroup (s d : String) : VWarn → Bool
  | VWarn.priceInconsistency s2 d2 _ => decide (s2 = s) && decide (d2 = d)
  | _ => false

theorem countP_namesGroup_transWarnPrice (rows : List Row) (s d : String) :
    (transWarnPrice rows).countP (namesGroup s d) = 0 := by
  rw [List.countP_eq_zero]
  intro w hw
  unfold transWarnPrice at hw
  split at hw
  · split at hw
    · rcases List.mem_singleton.mp hw with rfl
      simp [namesGroup]
    · cases hw
  · cases hw

theorem countP_namesGroup_transWarnVolume (rows : List Row) (s d : String) :
    (transWarnVolume rows).countP (namesGroup s d) = 0 := by
  rw [List.countP_eq_zero]
  intro w hw
  unfold transWarnVolume at hw
  split at hw
  · split at hw
    · rcases List.mem_singleton.mp hw with rfl
      simp [namesGroup]
    · cases hw
  · cases hw

theorem countP_namesGroup_transWarnVolatility (rows : List Row) (s d : String) :
    (transWarnVolatility rows).countP (namesGroup s d) = 0 := by
  rw [List.countP_eq_zero]
  intro w hw
  unfold transWarnVolatility at hw
  dsimp only at hw
  split at hw
  · rcases List.mem_singleton.mp hw with rfl
    simp [namesGroup]
  · cases hw

theorem countP_namesGroup_transWarnDup (rows : List Row) (s d : String) :
    (transWarnDup rows).countP (namesGroup s d) = 0 := by
  rw [List.countP_eq_zero]
  intro w hw
  unfold transWarnDup at hw
  dsimp only at hw
  split at hw
  · rcases List.mem_singleton.mp hw with rfl
    simp [namesGroup]
  · cases hw

theorem crossWarnings_inner_shape (df : List Row) (s : String) {w : VWarn}
    (hw : w ∈ (uniqueFirst ((symRows df s).map (fun r => r.date))).flatMap (fun d =>
      if 1 < (groupRows df s d).length then
        if 5 < spreadPct ((groupRows df s d).map (fun r => r.close)) then
          [VWarn.priceInconsistency s d
            (spreadPct ((groupRows df s d).map (fun r => r.close)))]
        else []
      else [])) :
    ∃ d2 sp, w = VWarn.priceInconsistency s d2 sp := by
  rcases List.mem_flatMap.mp hw with ⟨d2, _, hw2⟩
  split at hw2
  · split at hw2
    · rcases List.mem_singleton.mp hw2 with rfl
      exact ⟨d2, _, rfl⟩
    · cases hw2
  · cases hw2

theorem group_mem_facts {df : List Row} {s d : String} (hne : groupRows df s d ≠ []) :
    s ∈ uniqueFirst (df.map (fun r => r.symbol)) ∧
    d ∈ uniqueFirst ((symRows df s).map (fun r => r.date)) := by
  obtain ⟨r, hr⟩ := List.exists_mem_of_ne_nil _ hne
  have hrs : r ∈ symRows df s ∧ r.date = d := by
    have h1 := List.mem_filter.mp hr
    exact ⟨h1.1, by simpa using h1.2⟩
  have hrd : r ∈ df ∧ r.symbol = s := by
    have h1 := List.mem_filter.mp hrs.1
    exact ⟨h1.1, by simpa using h1.2⟩
  constructor
  · exact mem_uniqueFirst.mpr (hrd.2 ▸ List.mem_map_of_mem _ hrd.1)
  · exact mem_uniqueFirst.mpr (hrs.2 ▸ List.mem_map_of_mem _ hrs.1)

theorem countP_crossWarnings (df : List Row) (s d : String)
    (hglobal : 1 < (uniqueFirst (df.map (fun r => r.data_source))).length)
    (hlen : 1 < (groupRows df s d).length) :
    (crossWarnings df).countP (namesGroup s d) =
      if 5 < spreadPct ((groupRows df s d).map (fun r => r.close)) then 1 else 0 := by
  have hgne : groupRows df s d ≠ [] := by
    intro h
    rw [h] at hlen
    simp at hlen
  obtain ⟨hsmem, hdmem⟩ := group_mem_facts hgne
  rw [crossWarnings, if_pos hglobal]
  rw [countP_flatMap_single (namesGroup s d) _ nodup_uniqueFirst hsmem ?houter]
  case houter =>
    intro s2 _ hs2
    rw [List.countP_eq_zero]
    intro w hw
    rcases crossWarnings_inner_shape df s2 hw with ⟨d2, sp, rfl⟩
    simp [namesGroup, hs2]
  rw [countP_flatMap_single (namesGroup s d) _ nodup_uniqueFirst hdmem ?hinner]
  case hinner =>
    intro d2 _ hd2
    rw [List.countP_eq_zero]
    intro w hw
    split at hw
    · split at hw
      · rcases List.mem_singleton.mp hw with rfl
        simp [namesGroup, hd2]
      · cases hw
    · cases hw
  rw [if_pos hlen]
  by_cases hsp : 5 < spreadPct ((groupRows df s d).map (fun r => r.close))
  · rw [if_pos hsp, if_pos hsp]
    simp [List.countP_cons, namesGroup]
  · rw [if_neg hsp, if_neg hsp]
    simp

theorem validate_transformed_eval (df : Frame)
    (hany : df.rows.any (fun r => decide (r.close < 0)) = false) :
    validate_transformed_data df =
      (⟨true, [], transWarnPrice df.rows ++ transWarnVolume df.rows ++
        transWarnVolatility df.rows ++ transWarnDup df.rows ++ crossWarnings df.rows,
        some (tableMetrics df.rows)⟩, df) := by
  rw [validate_transformed_data, if_neg (by simp [schemaOk]), if_neg (by simp [hany])]

/-- C1: for a transformed table with no negative close (so the warning checks are
reached) and a (date, symbol) group holding more than one row from at least two
distinct data sources with positive closes, the cross-source check computes
price_spread_pct = (max(close) - min(close)) / min(close) * 100 over the group and
emits exactly one warning naming that symbol and date when the spread strictly
exceeds 5, and none otherwise; the validator still passes with no errors and its
metrics count every input row — the check drops nothing and never flips passed.
The positive-minimum hypothesis marks the domain where the rational embedding of
the spread formula agrees with the float arithmetic of the source. -/
theorem cross_source_consistency_check (df : Frame) (s d : String)
    (hpos : ∀ r ∈ df.rows, 0 ≤ r.close)
    (hlen : 1 < (groupRows df.rows s d).length)
    (hsrc : 2 ≤ (uniqueFirst ((groupRows df.rows s d).map (fun r => r.data_source))).length)
    (_hmin : 0 < foldMin ((groupRows df.rows s d).map (fun r => r.close))) :
    (validate_transformed_data df).1.passed = true ∧
    (validate_transformed_data df).1.errors = [] ∧
    (validate_transformed_data df).1.metrics = some (tableMetrics df.rows) ∧
    (tableMetrics df.rows).record_count = df.rows.length ∧
    ((validate_transformed_data df).1.warnings.countP (namesGroup s d) =
      if 5 < spreadPct ((groupRows df.rows s d).map (fun r => r.close)) then 1 else 0) ∧
    (5 < spreadPct ((groupRows df.rows s d).map (fun r => r.close)) →
      VWarn.priceInconsistency s d
          (spreadPct ((groupRows df.rows s d).map (fun r => r.close))) ∈
        (validate_transformed_data df).1.warnings) := by
  have hany : df.rows.any (fun r => decide (r.close < 0)) = false := by
    rw [List.any_eq_false]
    intro x hx
    simpa using not_lt.mpr (hpos x hx)
  have hgne : groupRows df.rows s d ≠ [] := by
    intro h
    rw [h] at hlen
    simp at hlen
  obtain ⟨hsmem, hdmem⟩ := group_mem_facts hgne
  have hglobal : 1 < (uniqueFirst (df.rows.map (fun r => r.data_source))).length := by
    have hsub : uniqueFirst ((groupRows df.rows s d).map (fun r => r.data_source)) ⊆
        uniqueFirst (df.rows.map (fun r => r.data_source)) := by
      intro x hx
      rw [mem_uniqueFirst] at hx ⊢
      rcases List.mem_map.mp hx with ⟨r, hr, rfl⟩
      have hrdf : r ∈ df.rows := (List.mem_filter.mp (List.mem_filter.mp hr).1).1
      exact List.mem_map_of_mem _ hrdf
    have hle := List.Subperm.length_le (List.Nodup.subperm nodup_uniqueFirst hsub)
    omega
  rw [validate_transformed_eval df hany]
  refine ⟨rfl, rfl, rfl, rfl, ?_, ?_⟩
  · simp only [List.countP_append]
    rw [countP_namesGroup_transWarnPrice, countP_namesGroup_transWarnVolume,
      countP_namesGroup_transWarnVolatility, countP_namesGroup_transWarnDup,
      countP_crossWarnings df.rows s d hglobal hlen]
    simp
  · intro hsp
    have hw : VWarn.priceInconsistency s d
        (spreadPct ((groupRows df.rows s d).map (fun r => r.close))) ∈
        crossWarnings df.rows := by
      rw [crossWarnings, if_pos hglobal]
      refine List.mem_flatMap.mpr ⟨s, hsmem, ?_⟩
      refine List.mem_flatMap.mpr ⟨d, hdmem, ?_⟩
      rw [if_pos hlen, if_pos hsp]
      exact List.mem_singleton_self _
    simp [hw]

/-- Yahoo-Finance row sharing the reconciliation key of dupRow with a close far
enough away for a spread above 5 percent. -/
def yfRow : Row :=
  ⟨"2023-09-01", "AAPL", some 100, some 200, some 90, 190, some 900,
    "yahoo_finance", "t1", none, none⟩

theorem cross_source_consistency_check_witness :
    (validate_transformed_data ⟨[dupRow, yfRow], none⟩).1.passed = true ∧
    (validate_transformed_data ⟨[dupRow, yfRow], none⟩).1.errors = [] ∧
    (validate_transformed_data ⟨[dupRow, yfRow], none⟩).1.metrics =
      some (tableMetrics [dupRow, yfRow]) ∧
    (tableMetrics [dupRow, yfRow]).record_count = ([dupRow, yfRow] : List Row).length ∧
    ((validate_transformed_data ⟨[dupRow, yfRow], none⟩).1.warnings.countP
        (namesGroup ("AAPL") ("2023-09-01")) =
      if 5 < spreadPct ((groupRows [dupRow, yfRow] "AAPL" "2023-09-01").map
          (fun r => r.close)) then 1 else 0) ∧
    (5 < spreadPct ((groupRows [dupRow, yfRow] "AAPL" "2023-09-01").map
        (fun r => r.close)) →
      VWarn.priceInconsistency ("AAPL") ("2023-09-01")
          (spreadPct ((groupRows [dupRow, yfRow] "AAPL" "2023-09-01").map
            (fun r => r.close))) ∈
        (validate_transformed_data ⟨[dupRow, yfRow], none⟩).1.warnings) :=
  cross_source_consistency_check ⟨[dupRow, yfRow], none⟩ "AAPL" "2023-09-01"
    (by decide) (by decide) (by decide) (by decide)
